import Mathlib

/-!
Verification of the OS abstraction layer of the Botan cryptographic library
(`src/lib/utils/os_utils/os_utils.h`).

The repository ships only the interface header for this layer; the
platform-specific implementation bodies are not present. Each operation is
therefore modelled from the specification and the header's documented
contract, as a shallow embedding over an explicit model of the relevant
operating-system state.
-/

namespace BotanOS

/-- Protection status of a mapped memory page. -/
inductive PageProt where
  | noAccess
  | readWrite
deriving DecidableEq

/-- Status of one mapped page: its protection and whether it is mlock-ed. -/
structure PageStatus where
  prot : PageProt
  locked : Bool
deriving DecidableEq

/-- Page-granular memory map: page index → status (`none` = unmapped). -/
def MemState : Type := Nat → Option PageStatus

/-- Outcome of a caller-supplied CPU probe body: it either executes an
illegal (unsupported) instruction and faults, or runs to completion
returning an integer. -/
inductive ProbeOutcome where
  | faults
  | returns (v : Int)
deriving DecidableEq

/-- Model of the operating-system facilities this layer reads.

Modelled from the spec: the platform sources of `os_utils` are absent from
the repository, so the ambient OS is represented explicitly: the process
privilege flag (setuid-style elevation), the environment contents, whether
the OS can intercept illegal-instruction faults, the optional clock
sources, the page size, and a fresh page-index region used by the locked
memory pool. -/
structure OSState where
  /-- The process runs under an elevated-privilege transition (setuid etc.). -/
  privileged : Bool
  /-- Environment contents: variable name → value if set. -/
  env : String → Option String
  /-- The OS provides a facility for catching illegal-instruction faults. -/
  canCatchFaults : Bool
  /-- Hardware cycle counter reading, if such a counter is available. -/
  hw_cycle_counter : Option Nat
  /-- OS monotonic clock reading, if available. -/
  os_monotonic_clock : Option Nat
  /-- Generic high-resolution clock reading, if available. -/
  hires_clock : Option Nat
  /-- Wall-clock nanoseconds since the Unix epoch, if a real-time clock exists. -/
  rtc_ns : Option Nat
  /-- Platform page size in bytes. -/
  page_size : Nat
  /-- First page index of the fresh region the locked pool maps into. -/
  pool_base : Nat
  /-- Built-in default for the memory locking limit when the environment
  does not override it. -/
  mlock_default : Nat

/-- Result of the string-form environment read: `found` and a value,
never partially populated. -/
structure EnvReadResult where
  found : Bool
  value : String
deriving DecidableEq

/-- Modelled from the spec: `read_env_variable` (body absent from src/).
Looks up an environment value by exact name. If the process seems to be
running in a privileged state (such as setuid) it always reports not-found
with an empty value and does not examine the environment; otherwise it
returns the variable's value when set, and not-found/empty when unset. -/
def read_env_variable (os : OSState) (var_name : String) : EnvReadResult :=
  if os.privileged then
    { found := false, value := "" }
  else
    match os.env var_name with
    | some v => { found := true, value := v }
    | none => { found := false, value := "" }

/-- Numeric value of a list of digit characters, most significant first,
accumulated onto `acc`. -/
def digitsVal : List Char → Nat → Nat
  | [], acc => acc
  | c :: cs, acc => digitsVal cs (acc * 10 + (c.toNat - 48))

/-- Numeric value of a digit string, most significant digit first. -/
def digitsToNat (s : String) : Nat :=
  digitsVal s.data 0

/-- Modelled from the spec: the integer parse used by `read_env_variable_sz`
(body absent from src/). A value is well-formed when it is a nonempty
string of decimal digits; anything else is malformed. -/
def parse_env_sz (s : String) : Option Nat :=
  if !s.data.isEmpty && s.data.all Char.isDigit then some (digitsToNat s) else none

/-- Modelled from the spec: `read_env_variable_sz` (body absent from src/).
Reads an environment variable and converts it to a non-negative integer;
if the variable is not set, the value is malformed, or the process is
privileged, returns the supplied default. -/
def read_env_variable_sz (os : OSState) (var_name : String) (def_value : Nat) : Nat :=
  let r := read_env_variable os var_name
  if r.found then
    match parse_env_sz r.value with
    | some n => n
    | none => def_value
  else def_value

/-- Modelled from the spec: `run_cpu_instruction_probe` (body absent from
src/). Runs the probe body inside a system-specific environment that
catches illegal instructions. If the OS provides no such facility the
function always fails, returning a negative number, without running the
probe. Otherwise: an illegal-instruction fault is intercepted and yields
`-1`; a probe that runs to completion has its own return value passed
through unchanged. -/
def run_cpu_instruction_probe (os : OSState) (probe_fn : ProbeOutcome) : Int :=
  if os.canCatchFaults then
    match probe_fn with
    | .faults => -1
    | .returns v => v
  else -1

/-- Modelled from the spec: `get_cpu_cycle_counter` (body absent from
src/). Hardware cycle counter reading, or 0 when none is available. -/
def get_cpu_cycle_counter (os : OSState) : Nat :=
  (os.hw_cycle_counter).getD 0

/-- Modelled from the spec: `get_high_resolution_clock` (body absent from
src/). Best available monotonic ticks with arbitrary epoch; fallback order
is hardware cycle counter → OS monotonic clock → generic high-resolution
clock → `0` when nothing is available. Never fails. -/
def get_high_resolution_clock (os : OSState) : Nat :=
  match os.hw_cycle_counter with
  | some v => v
  | none =>
    match os.os_monotonic_clock with
    | some v => v
    | none =>
      match os.hires_clock with
      | some v => v
      | none => 0

/-- Error kinds surfaced by this layer. -/
inductive OSError where
  | notImplemented
deriving DecidableEq

/-- Modelled from the spec: `get_system_timestamp_ns` (body absent from
src/). Wall-clock nanoseconds since the Unix epoch; if the system has no
real-time clock the call fails with `Not_Implemented` instead of
fabricating a value. -/
def get_system_timestamp_ns (os : OSState) : Except OSError Nat :=
  match os.rtc_ns with
  | some v => Except.ok v
  | none => Except.error OSError.notImplemented

/-- One clock source advancing between two sequential reads: the source's
availability is unchanged and, when present, its value does not decrease. -/
def optAdvances : Option Nat → Option Nat → Bool
  | some a, some b => a ≤ b
  | none, none => true
  | _, _ => false

/-- Two OS states model the same machine observed at two sequential
instants: every clock source keeps its availability and its reading does
not decrease. -/
def clockAdvances (os₁ os₂ : OSState) : Bool :=
  optAdvances os₁.hw_cycle_counter os₂.hw_cycle_counter &&
    optAdvances os₁.os_monotonic_clock os₂.os_monotonic_clock &&
    optAdvances os₁.hires_clock os₂.hires_clock

/-- Modelled from the spec: `get_memory_locking_limit` (body absent from
src/). Maximum bytes the locked memory pool may request, read through the
numeric environment accessor at the fixed name `BOTAN_MLOCK_POOL_SIZE`;
`0` disables the pool. -/
def get_memory_locking_limit (os : OSState) : Nat :=
  read_env_variable_sz os "BOTAN_MLOCK_POOL_SIZE" os.mlock_default

/-- A page handle returned to callers of the locked memory pool. -/
structure LockedPage where
  base_address : Nat
  size_bytes : Nat
deriving DecidableEq

/-- Number of pages the pool may actually lock for a request of `count`:
the request, capped by the locking budget. -/
def lockable_pages (os : OSState) (count : Nat) : Nat :=
  min count (get_memory_locking_limit os / os.page_size)

/-- First page index of the i-th three-page group (guard / usable / guard)
mapped by the pool. -/
def page_triple_base (os : OSState) (i : Nat) : Nat :=
  os.pool_base + 3 * i

/-- Modelled from the spec: `allocate_locked_pages` (body absent from
src/). Requests `count` pages locked into memory; may return fewer than
`count` (empty on failure) and never throws. Each usable page is mapped as
the middle page of a fresh three-page group whose first and last pages are
guard pages marked no-access. Returns the callers' handles. -/
def allocate_locked_pages (os : OSState) (count : Nat) : List LockedPage :=
  (List.range (lockable_pages os count)).map fun i =>
    { base_address := (page_triple_base os i + 1) * os.page_size,
      size_bytes := os.page_size }

/-- Modelled from the spec: the memory map established by
`allocate_locked_pages os count`: for each allocated group, the middle
page is mapped read-write and locked, the two flanking guard pages are
mapped with no access rights; everything outside the pool region is
untouched (unmapped in the pool's own map). -/
def mem_after_alloc (os : OSState) (count : Nat) : MemState := fun idx =>
  if os.pool_base ≤ idx ∧ idx < os.pool_base + 3 * lockable_pages os count then
    if (idx - os.pool_base) % 3 = 1 then
      some { prot := PageProt.readWrite, locked := true }
    else
      some { prot := PageProt.noAccess, locked := false }
  else none

/-- A handle is a properly mapped locked page in `mem`: exactly one page
in size, page-aligned, mapped read-write and locked, and flanked on both
sides by no-access guard pages. -/
def page_ok (os : OSState) (mem : MemState) (p : LockedPage) : Bool :=
  let pi := p.base_address / os.page_size
  decide (p.size_bytes = os.page_size) &&
    decide (p.base_address % os.page_size = 0) &&
    decide (0 < pi) &&
    decide (mem (pi - 1) = some { prot := PageProt.noAccess, locked := false }) &&
    decide (mem pi = some { prot := PageProt.readWrite, locked := true }) &&
    decide (mem (pi + 1) = some { prot := PageProt.noAccess, locked := false })

/-- Modelled from the spec: `free_locked_pages` (body absent from src/).
Releases every listed page together with its two guard pages. Freeing a
handle that is not a properly mapped pool page is a caller error, modelled
as `none`; on success the listed groups are unmapped. -/
def free_locked_pages (os : OSState) (mem : MemState) (pages : List LockedPage) :
    Option MemState :=
  if pages.all (page_ok os mem) then
    some (fun idx =>
      if pages.any (fun p =>
          let pi := p.base_address / os.page_size
          idx + 1 = pi || idx = pi || idx = pi + 1) then
        none
      else mem idx)
  else none

/-- States of the terminal echo-suppression handle. -/
inductive EchoState where
  | Active
  | Restored
deriving DecidableEq

/-- A live echo-suppression handle (created `Active` by a successful
`suppress_echo_on_terminal`). -/
structure EchoHandle where
  state : EchoState
deriving DecidableEq

/-- Errors of the underlying terminal-restore operation. -/
inductive EchoError where
  | restoreFailed
deriving DecidableEq

/-- Modelled from the spec: `Echo_Suppression::reenable_echo` (body absent
from src/). In state `Active` it attempts the underlying terminal restore,
whose outcome `restore_ok` the OS decides: on success the handle moves to
`Restored`, on failure the error is thrown to the caller. In state
`Restored` the call is a no-op that cannot error. -/
def reenable_echo (h : EchoHandle) (restore_ok : Bool) : Except EchoError EchoHandle :=
  match h.state with
  | EchoState.Restored => Except.ok h
  | EchoState.Active =>
    if restore_ok then Except.ok { state := EchoState.Restored }
    else Except.error EchoError.restoreFailed

/-- Observable outcome of destroying an echo-suppression handle: how many
times the underlying restore was attempted, and which error (if any)
propagated out of the destructor. -/
structure DestroyResult where
  attempts : Nat
  propagated : Option EchoError
deriving DecidableEq

/-- Modelled from the spec: `Echo_Suppression::~Echo_Suppression` (body
absent from src/). If the handle is still `Active` the destructor calls
`reenable_echo` once and swallows any error; if already `Restored` it does
nothing. No error ever propagates from this implicit cleanup. -/
def echo_destructor (h : EchoHandle) (restore_ok : Bool) : DestroyResult :=
  match h.state with
  | EchoState.Restored => { attempts := 0, propagated := none }
  | EchoState.Active =>
    match reenable_echo h restore_ok with
    | Except.ok _ => { attempts := 1, propagated := none }
    | Except.error _ => { attempts := 1, propagated := none }

/-! Concrete sample states used by the witnesses. -/

/-- A privileged process with one environment variable set and all clock
sources available. -/
def osPriv : OSState :=
  { privileged := true,
    env := fun n => if n = "FOO" then some "123" else none,
    canCatchFaults := true,
    hw_cycle_counter := some 5,
    os_monotonic_clock := some 7,
    hires_clock := some 9,
    rtc_ns := some 11,
    page_size := 4096,
    pool_base := 100,
    mlock_default := 16384 }

/-- The same privileged process with a completely empty environment. -/
def osPrivEmptyEnv : OSState := { osPriv with env := fun _ => none }

/-- The same process without the privilege elevation. -/
def osUnpriv : OSState := { osPriv with privileged := false }

/-- A platform without a fault-catching facility. -/
def osNoCatch : OSState := { osPriv with canCatchFaults := false }

/-- A platform without a real-time clock. -/
def osNoRtc : OSState := { osPriv with rtc_ns := none }

/-- A platform without any high-resolution clock source. -/
def osNoClock : OSState :=
  { osPriv with hw_cycle_counter := none, os_monotonic_clock := none, hires_clock := none }

/-- The machine of `osPriv` observed slightly later: every source advanced. -/
def osLater : OSState :=
  { osPriv with hw_cycle_counter := some 6, os_monotonic_clock := some 8,
                hires_clock := some 10 }

/-- C1: in a privileged state, `read_env_variable` reports not-found with an
empty value and `read_env_variable_sz` returns the supplied default, and the
results are identical across any two runs differing only in the environment
contents, so a privileged caller cannot distinguish a set variable from an
absent one. -/
theorem privileged_env_read_blind (os : OSState) (env' : String → Option String)
    (name : String) (d : Nat) (hpriv : os.privileged = true) :
    read_env_variable os name = { found := false, value := "" } ∧
    read_env_variable_sz os name d = d ∧
    read_env_variable { os with env := env' } name = read_env_variable os name ∧
    read_env_variable_sz { os with env := env' } name d = read_env_variable_sz os name d := by
  simp [read_env_variable, read_env_variable_sz, hpriv]

theorem privileged_env_read_blind_witness :
    osPriv.privileged = true ∧
    (read_env_variable osPriv "FOO" = { found := false, value := "" } ∧
      read_env_variable_sz osPriv "FOO" 7 = 7 ∧
      read_env_variable { osPriv with env := fun _ => none } "FOO" =
        read_env_variable osPriv "FOO" ∧
      read_env_variable_sz { osPriv with env := fun _ => none } "FOO" 7 =
        read_env_variable_sz osPriv "FOO" 7) :=
  ⟨rfl, privileged_env_read_blind osPriv (fun _ => none) "FOO" 7 rfl⟩

/-- C2: when the OS can intercept illegal-instruction faults,
`run_cpu_instruction_probe` returns exactly `-1` for a probe that faults,
and passes through unchanged the return value of a probe that runs to
completion. -/
theorem probe_intercepts_and_passes_through (os : OSState)
    (hc : os.canCatchFaults = true) :
    run_cpu_instruction_probe os ProbeOutcome.faults = -1 ∧
    ∀ v : Int, run_cpu_instruction_probe os (ProbeOutcome.returns v) = v := by
  refine ⟨?_, fun v => ?_⟩ <;> simp [run_cpu_instruction_probe, hc]

theorem probe_intercepts_and_passes_through_witness :
    osPriv.canCatchFaults = true ∧
    run_cpu_instruction_probe osPriv ProbeOutcome.faults = -1 ∧
    run_cpu_instruction_probe osPriv (ProbeOutcome.returns 42) = 42 :=
  ⟨rfl, (probe_intercepts_and_passes_through osPriv rfl).1,
    (probe_intercepts_and_passes_through osPriv rfl).2 42⟩

/-- C10: on a platform whose OS provides no facility for catching
illegal-instruction faults, `run_cpu_instruction_probe` returns a negative
value for every probe function; in particular a non-faulting probe's own
non-negative return value never passes through. -/
theorem probe_fails_without_fault_facility (os : OSState)
    (hc : os.canCatchFaults = false) (probe_fn : ProbeOutcome) :
    run_cpu_instruction_probe os probe_fn < 0 ∧
    ∀ v : Int, 0 ≤ v →
      run_cpu_instruction_probe os (ProbeOutcome.returns v) ≠ v := by
  refine ⟨?_, fun v hv => ?_⟩
  · simp [run_cpu_instruction_probe, hc]
  · simp [run_cpu_instruction_probe, hc]
    omega

theorem probe_fails_without_fault_facility_witness :
    osNoCatch.canCatchFaults = false ∧
    (run_cpu_instruction_probe osNoCatch (ProbeOutcome.returns 42) < 0 ∧
      run_cpu_instruction_probe osNoCatch (ProbeOutcome.returns 42) ≠ 42) :=
  ⟨rfl, (probe_fails_without_fault_facility osNoCatch rfl (ProbeOutcome.returns 42)).1,
    (probe_fails_without_fault_facility osNoCatch rfl (ProbeOutcome.returns 42)).2 42
      (by decide)⟩

/-- C9: for an unprivileged process, `read_env_variable_sz` returns the
parsed non-negative integer value of the variable when it is set to a
well-formed number, and the supplied default when the variable is unset or
its value is malformed. -/
theorem read_env_variable_sz_unprivileged (os : OSState) (name : String) (d : Nat)
    (hpriv : os.privileged = false) :
    (∀ s k, os.env name = some s → parse_env_sz s = some k →
      read_env_variable_sz os name d = k) ∧
    (os.env name = none → read_env_variable_sz os name d = d) ∧
    (∀ s, os.env name = some s → parse_env_sz s = none →
      read_env_variable_sz os name d = d) := by
  refine ⟨fun s k hs hk => ?_, fun hs => ?_, fun s hs hk => ?_⟩
  · simp [read_env_variable_sz, read_env_variable, hpriv, hs, hk]
  · simp [read_env_variable_sz, read_env_variable, hpriv, hs]
  · simp [read_env_variable_sz, read_env_variable, hpriv, hs, hk]

theorem read_env_variable_sz_unprivileged_witness :
    osUnpriv.privileged = false ∧
    osUnpriv.env "FOO" = some "123" ∧ parse_env_sz "123" = some 123 ∧
    read_env_variable_sz osUnpriv "FOO" 7 = 123 ∧
    osUnpriv.env "BAR" = none ∧
    read_env_variable_sz osUnpriv "BAR" 7 = 7 :=
  ⟨rfl, by decide, by decide,
    (read_env_variable_sz_unprivileged osUnpriv "FOO" 7 rfl).1 "123" 123 (by decide)
      (by decide),
    by decide,
    (read_env_variable_sz_unprivileged osUnpriv "BAR" 7 rfl).2.1 (by decide)⟩

/-- C5: `get_system_timestamp_ns` returns the wall-clock nanoseconds since
the Unix epoch when a real-time clock exists, and fails with
`Not_Implemented` exactly when none exists; the error is never replaced by
a fabricated value such as `0`. -/
theorem system_timestamp_not_implemented_iff_no_rtc (os : OSState) :
    (∀ v, os.rtc_ns = some v → get_system_timestamp_ns os = Except.ok v) ∧
    (get_system_timestamp_ns os = Except.error OSError.notImplemented ↔ os.rtc_ns = none) ∧
    (os.rtc_ns = none → ∀ v, get_system_timestamp_ns os ≠ Except.ok v) := by
  cases h : os.rtc_ns <;> simp [get_system_timestamp_ns, h]

theorem system_timestamp_not_implemented_iff_no_rtc_witness :
    (osPriv.rtc_ns = some 11 ∧ get_system_timestamp_ns osPriv = Except.ok 11) ∧
    (osNoRtc.rtc_ns = none ∧
      get_system_timestamp_ns osNoRtc = Except.error OSError.notImplemented ∧
      get_system_timestamp_ns osNoRtc ≠ Except.ok 0) :=
  ⟨⟨rfl, (system_timestamp_not_implemented_iff_no_rtc osPriv).1 11 rfl⟩,
    ⟨rfl, ((system_timestamp_not_implemented_iff_no_rtc osNoRtc).2.1).mpr rfl,
      (system_timestamp_not_implemented_iff_no_rtc osNoRtc).2.2 rfl 0⟩⟩

/-- C7: once a `reenable_echo` call has succeeded the handle is `Restored`,
and every subsequent `reenable_echo` call is a no-op that does not error:
the state is unchanged and the second call returns successfully whatever
the underlying terminal operation would do. -/
theorem reenable_echo_idempotent (h : EchoHandle) (ok₁ : Bool) (h' : EchoHandle)
    (hsucc : reenable_echo h ok₁ = Except.ok h') :
    h'.state = EchoState.Restored ∧
    ∀ ok₂, reenable_echo h' ok₂ = Except.ok h' := by
  obtain ⟨st⟩ := h
  cases st with
  | Restored =>
    simp only [reenable_echo] at hsucc
    cases hsucc
    exact ⟨rfl, fun ok₂ => rfl⟩
  | Active =>
    simp only [reenable_echo] at hsucc
    cases ok₁ with
    | true =>
      simp at hsucc
      cases hsucc
      exact ⟨rfl, fun ok₂ => rfl⟩
    | false => simp at hsucc

theorem reenable_echo_idempotent_witness :
    reenable_echo { state := EchoState.Active } true =
      Except.ok { state := EchoState.Restored } ∧
    ((⟨EchoState.Restored⟩ : EchoHandle).state = EchoState.Restored ∧
      ∀ ok₂, reenable_echo ⟨EchoState.Restored⟩ ok₂ =
        Except.ok (⟨EchoState.Restored⟩ : EchoHandle)) :=
  ⟨rfl, reenable_echo_idempotent ⟨EchoState.Active⟩ true ⟨EchoState.Restored⟩ rfl⟩

/-- C8: destroying a handle that is still `Active` attempts the restore
transition exactly once and discards any failure: no error propagates from
the implicit cleanup, for every possible outcome of the underlying restore
operation. -/
theorem echo_destructor_swallows_errors (h : EchoHandle) (restore_ok : Bool)
    (ha : h.state = EchoState.Active) :
    echo_destructor h restore_ok = { attempts := 1, propagated := none } := by
  obtain ⟨st⟩ := h
  cases st with
  | Active => cases restore_ok <;> rfl
  | Restored => simp at ha

theorem echo_destructor_swallows_errors_witness :
    (⟨EchoState.Active⟩ : EchoHandle).state = EchoState.Active ∧
    echo_destructor ⟨EchoState.Active⟩ false = { attempts := 1, propagated := none } ∧
    echo_destructor ⟨EchoState.Active⟩ true = { attempts := 1, propagated := none } :=
  ⟨rfl, echo_destructor_swallows_errors ⟨EchoState.Active⟩ false rfl,
    echo_destructor_swallows_errors ⟨EchoState.Active⟩ true rfl⟩

/-- The fallback chain of `get_high_resolution_clock`, written as an
option chain: hardware counter, else monotonic clock, else generic
high-resolution clock, else `0`. -/
theorem get_high_resolution_clock_eq (os : OSState) :
    get_high_resolution_clock os =
      ((os.hw_cycle_counter.orElse fun _ => os.os_monotonic_clock).orElse
        fun _ => os.hires_clock).getD 0 := by
  unfold get_high_resolution_clock
  rcases os.hw_cycle_counter with _ | a <;>
    rcases os.os_monotonic_clock with _ | b <;>
    rcases os.hires_clock with _ | c <;> rfl

/-- An advancing source never decreases the defaulted reading. -/
theorem optAdvances_getD {o₁ o₂ : Option Nat} (h : optAdvances o₁ o₂ = true) :
    o₁.getD 0 ≤ o₂.getD 0 := by
  cases o₁ <;> cases o₂ <;> simp_all [optAdvances]

/-- Advancing is preserved by the fallback combination of two sources. -/
theorem optAdvances_orElse {a₁ a₂ b₁ b₂ : Option Nat}
    (ha : optAdvances a₁ a₂ = true) (hb : optAdvances b₁ b₂ = true) :
    optAdvances (a₁.orElse fun _ => b₁) (a₂.orElse fun _ => b₂) = true := by
  cases a₁ <;> cases a₂ <;> simp_all [optAdvances, Option.orElse]

/-- C6: `get_high_resolution_clock` never fails; across two sequential
reads of the same machine the result is non-decreasing, and when no clock
source is available every call returns `0`. -/
theorem high_resolution_clock_monotone_or_zero (os₁ os₂ : OSState)
    (h : clockAdvances os₁ os₂ = true) :
    get_high_resolution_clock os₁ ≤ get_high_resolution_clock os₂ ∧
    (os₁.hw_cycle_counter = none → os₁.os_monotonic_clock = none →
      os₁.hires_clock = none →
      get_high_resolution_clock os₁ = 0 ∧ get_high_resolution_clock os₂ = 0) := by
  simp only [clockAdvances, Bool.and_eq_true] at h
  obtain ⟨⟨hhw, hmono⟩, hhi⟩ := h
  constructor
  · rw [get_high_resolution_clock_eq, get_high_resolution_clock_eq]
    exact optAdvances_getD (optAdvances_orElse (optAdvances_orElse hhw hmono) hhi)
  · intro e₁ e₂ e₃
    rw [e₁] at hhw; rw [e₂] at hmono; rw [e₃] at hhi
    have f₁ : os₂.hw_cycle_counter = none := by
      cases h₂ : os₂.hw_cycle_counter
      · rfl
      · rw [h₂] at hhw; simp [optAdvances] at hhw
    have f₂ : os₂.os_monotonic_clock = none := by
      cases h₂ : os₂.os_monotonic_clock
      · rfl
      · rw [h₂] at hmono; simp [optAdvances] at hmono
    have f₃ : os₂.hires_clock = none := by
      cases h₂ : os₂.hires_clock
      · rfl
      · rw [h₂] at hhi; simp [optAdvances] at hhi
    rw [get_high_resolution_clock_eq, get_high_resolution_clock_eq,
      e₁, e₂, e₃, f₁, f₂, f₃]
    exact ⟨rfl, rfl⟩

theorem high_resolution_clock_monotone_or_zero_witness :
    (clockAdvances osPriv osLater = true ∧
      get_high_resolution_clock osPriv ≤ get_high_resolution_clock osLater) ∧
    (clockAdvances osNoClock osNoClock = true ∧
      get_high_resolution_clock osNoClock = 0 ∧
      get_high_resolution_clock osNoClock = 0) :=
  ⟨⟨by decide, (high_resolution_clock_monotone_or_zero osPriv osLater (by decide)).1⟩,
    ⟨by decide,
      (high_resolution_clock_monotone_or_zero osNoClock osNoClock (by decide)).2
        rfl rfl rfl⟩⟩

/-- The memory map after allocation, evaluated on the i-th three-page
group: guard page, usable locked page, guard page. -/
theorem mem_after_alloc_eq (os : OSState) (count i : Nat)
    (hi : i < lockable_pages os count) :
    mem_after_alloc os count (os.pool_base + 3 * i) =
      some { prot := PageProt.noAccess, locked := false } ∧
    mem_after_alloc os count (os.pool_base + 3 * i + 1) =
      some { prot := PageProt.readWrite, locked := true } ∧
    mem_after_alloc os count (os.pool_base + 3 * i + 2) =
      some { prot := PageProt.noAccess, locked := false } := by
  unfold mem_after_alloc
  set n := lockable_pages os count with hn
  refine ⟨?_, ?_, ?_⟩
  · rw [if_pos (by omega), if_neg (by omega)]
  · rw [if_pos (by omega), if_pos (by omega)]
  · rw [if_pos (by omega), if_neg (by omega)]

/-- Every handle produced by the allocation is a properly mapped locked
page of the post-allocation memory map. -/
theorem page_ok_alloc (os : OSState) (count : Nat) (hps : 0 < os.page_size)
    (i : Nat) (hi : i < lockable_pages os count) :
    page_ok os (mem_after_alloc os count)
      { base_address := (page_triple_base os i + 1) * os.page_size,
        size_bytes := os.page_size } = true := by
  obtain ⟨h0, h1, h2⟩ := mem_after_alloc_eq os count i hi
  have hq : (page_triple_base os i + 1) * os.page_size / os.page_size =
      page_triple_base os i + 1 := Nat.mul_div_cancel _ hps
  have e0 : page_triple_base os i + 1 - 1 = os.pool_base + 3 * i := by
    unfold page_triple_base; omega
  have e2 : page_triple_base os i + 1 + 1 = os.pool_base + 3 * i + 2 := by
    unfold page_triple_base; omega
  have e1 : page_triple_base os i + 1 = os.pool_base + 3 * i + 1 := by
    unfold page_triple_base; omega
  simp only [page_ok, hq]
  rw [e0, e2, e1]
  simp [h0, h1, h2, Nat.mul_mod_left]

/-- C3: for every count, `allocate_locked_pages` returns a sequence of at
most `count` pages (it is a total function, so it never throws for
resource exhaustion), and `free_locked_pages` applied to the full returned
sequence succeeds. -/
theorem allocate_locked_pages_bounded_and_freeable (os : OSState) (count : Nat)
    (hps : 0 < os.page_size) :
    (allocate_locked_pages os count).length ≤ count ∧
    (free_locked_pages os (mem_after_alloc os count)
      (allocate_locked_pages os count)).isSome = true := by
  constructor
  · simp only [allocate_locked_pages, List.length_map, List.length_range]
    exact Nat.min_le_left _ _
  · have hall : (allocate_locked_pages os count).all
        (page_ok os (mem_after_alloc os count)) = true := by
      rw [List.all_eq_true]
      intro p hp
      simp only [allocate_locked_pages, List.mem_map, List.mem_range] at hp
      obtain ⟨i, hi, rfl⟩ := hp
      exact page_ok_alloc os count hps i hi
    unfold free_locked_pages
    rw [if_pos hall]
    rfl

theorem allocate_locked_pages_bounded_and_freeable_witness :
    0 < osPriv.page_size ∧
    ((allocate_locked_pages osPriv 2).length ≤ 2 ∧
      (free_locked_pages osPriv (mem_after_alloc osPriv 2)
        (allocate_locked_pages osPriv 2)).isSome = true) :=
  ⟨by decide, allocate_locked_pages_bounded_and_freeable osPriv 2 (by decide)⟩

/-- C4: every page returned by `allocate_locked_pages` satisfies the
`LockedPage` invariant in the post-allocation memory map: its size is a
multiple of the page size, its base address is page-aligned, the pages
immediately before and immediately after the usable region are mapped
with no access rights, and neither guard page's address is ever handed
out as a caller-visible base address. -/
theorem locked_page_guard_invariant (os : OSState) (count : Nat)
    (p : LockedPage) (hps : 0 < os.page_size)
    (hp : p ∈ allocate_locked_pages os count) :
    p.size_bytes % os.page_size = 0 ∧
    p.base_address % os.page_size = 0 ∧
    mem_after_alloc os count (p.base_address / os.page_size - 1) =
      some { prot := PageProt.noAccess, locked := false } ∧
    mem_after_alloc os count (p.base_address / os.page_size + 1) =
      some { prot := PageProt.noAccess, locked := false } ∧
    ∀ q ∈ allocate_locked_pages os count,
      q.base_address ≠ (p.base_address / os.page_size - 1) * os.page_size ∧
      q.base_address ≠ (p.base_address / os.page_size + 1) * os.page_size := by
  simp only [allocate_locked_pages, List.mem_map, List.mem_range] at hp
  obtain ⟨i, hi, rfl⟩ := hp
  obtain ⟨h0, h1, h2⟩ := mem_after_alloc_eq os count i hi
  have hq : (page_triple_base os i + 1) * os.page_size / os.page_size =
      page_triple_base os i + 1 := Nat.mul_div_cancel _ hps
  simp only [hq]
  refine ⟨Nat.mod_self _, Nat.mul_mod_left _ _, ?_, ?_, ?_⟩
  · have he : page_triple_base os i + 1 - 1 = os.pool_base + 3 * i := by
      unfold page_triple_base; omega
    rw [he]; exact h0
  · have he : page_triple_base os i + 1 + 1 = os.pool_base + 3 * i + 2 := by
      unfold page_triple_base; omega
    rw [he]; exact h2
  · intro q hq'
    simp only [allocate_locked_pages, List.mem_map, List.mem_range] at hq'
    obtain ⟨j, hj, rfl⟩ := hq'
    constructor
    · intro heq
      have := Nat.eq_of_mul_eq_mul_right hps heq
      unfold page_triple_base at this
      omega
    · intro heq
      have := Nat.eq_of_mul_eq_mul_right hps heq
      unfold page_triple_base at this
      omega

theorem locked_page_guard_invariant_witness :
    0 < osPriv.page_size ∧
    ({ base_address := 413696, size_bytes := 4096 } : LockedPage) ∈
      allocate_locked_pages osPriv 1 ∧
    (413696 : Nat) % osPriv.page_size = 0 ∧
    mem_after_alloc osPriv 1 (413696 / osPriv.page_size - 1) =
      some { prot := PageProt.noAccess, locked := false } :=
  ⟨by decide, by decide,
    (locked_page_guard_invariant osPriv 1 ⟨413696, 4096⟩ (by decide) (by decide)).2.1,
    (locked_page_guard_invariant osPriv 1 ⟨413696, 4096⟩ (by decide) (by decide)).2.2.1⟩

end BotanOS
